import Mathlib

/-!
Verification of the spirecomm C++ bridge client
(`cpp_client/src/client.cpp`, `cpp_client/include/spirecomm/client.hpp`,
`cpp_client/include/spirecomm/types.hpp`).

The HTTP transport and the JSON codec are external black boxes: a request
outcome is modelled as `Option HttpResponse` (`none` = no response), and a
response body is modelled by its parse outcome (`Body.malformed` = the
parser throws, `Body.parsed j` = it yields the document `j`).  Everything
else — the client state held in `SpireCommClient::Impl` and every branch of
every member function — is translated directly from the source.
-/

namespace Spirecomm

/-- A JSON document (nlohmann::json value), as cached and inspected by the
client.  Numbers are modelled as integers; the client never reads
fractional values. -/
inductive Json where
  | null : Json
  | bool : Bool → Json
  | num : Int → Json
  | str : String → Json
  | arr : List Json → Json
  | obj : List (String × Json) → Json

/-- Field lookup in a JSON object member list (nlohmann `find`): the value
of the first member with the given key. -/
def lookupField : List (String × Json) → String → Option Json
  | [], _ => none
  | (k, v) :: rest, key => if k = key then some v else lookupField rest key

/-- nlohmann `empty()`: `true` for `null` and for empty arrays/objects,
`false` for every other value (booleans, numbers, strings, non-empty
containers). -/
def Json.empty : Json → Bool
  | .null => true
  | .arr xs => xs.isEmpty
  | .obj fs => fs.isEmpty
  | _ => false

/-- nlohmann `contains(key)`: `true` iff the value is an object with a
member of that key (`false`, without throwing, on non-objects). -/
def Json.containsKey : Json → String → Bool
  | .obj fs, key => (lookupField fs key).isSome
  | _, _ => false

/-- nlohmann `value(key, default)` at type `bool`.  `some b` is a normal
return; `none` models a thrown `json::exception`: `type_error.306` when the
value is not an object, `type_error.302` when the member exists but is not
a boolean. -/
def Json.valueBool : Json → String → Bool → Option Bool
  | .obj fs, key, dflt =>
    match lookupField fs key with
    | none => some dflt
    | some (.bool b) => some b
    | some _ => none
  | _, _, _ => none

/-- nlohmann `value(key, default)` at type `std::string`, with the same
exception model as `Json.valueBool`. -/
def Json.valueStr : Json → String → String → Option String
  | .obj fs, key, dflt =>
    match lookupField fs key with
    | none => some dflt
    | some (.str s) => some s
    | some _ => none
  | _, _, _ => none

/-- Range-`for` iteration over a JSON value (nlohmann iterators): an array
yields its elements, an object yields its member values, `null` yields
nothing, and any primitive yields itself once. -/
def Json.iterVals : Json → List Json
  | .null => []
  | .arr xs => xs
  | .obj fs => fs.map Prod.snd
  | j => [j]

/-- `ClientConfig` as defined in `include/spirecomm/client.hpp` — the
definition actually compiled into `client.cpp`. -/
structure ClientConfig where
  host : String
  port : Int
  timeout_ms : Int
  debug : Bool

/-- The default-constructed `ClientConfig` of `client.hpp`. -/
def ClientConfig.default : ClientConfig :=
  { host := "127.0.0.1", port := 8080, timeout_ms := 5000, debug := false }

namespace Types

/-- `ConnectionStatus` from `include/spirecomm/types.hpp`. -/
inductive ConnectionStatus where
  | DISCONNECTED
  | CONNECTED
  | WAITING_FOR_STATE
  | READY
deriving DecidableEq, Repr

/-- `ClientConfig` as defined in `include/spirecomm/types.hpp` (a second,
richer definition of the same name; `client.cpp` does not include this
header). -/
structure ClientConfig where
  host : String
  port : Int
  timeout_ms : Int
  poll_interval_ms : Int
  max_consecutive_failures : Nat
  debug : Bool

/-- The default-constructed `types.hpp` `ClientConfig`. -/
def ClientConfig.default : ClientConfig :=
  { host := "127.0.0.1", port := 8080, timeout_ms := 5000,
    poll_interval_ms := 50, max_consecutive_failures := 10, debug := false }

end Types

/-- The parse outcome of a response body: `malformed w` models
`json::parse` throwing an exception whose `what()` text is `w`;
`parsed j` models a successful parse yielding `j`. -/
inductive Body where
  | malformed : String → Body
  | parsed : Json → Body

/-- An HTTP response as seen through httplib: a status code and a body. -/
structure HttpResponse where
  status : Int
  body : Body

/-- `SpireCommClient::Impl`: the whole mutable client state.  The
`httplib::Client` handle carries no client-visible state and is elided;
`cached_state` starts as a default-constructed (null) json. -/
structure Impl where
  config : ClientConfig
  cached_state : Json
  connected : Bool
  last_error : String

/-- The state of a freshly constructed client. -/
def Impl.init (cfg : ClientConfig) : Impl :=
  { config := cfg, cached_state := .null, connected := false, last_error := "" }

/-- `Impl::setError`: records the message in `last_error` (the debug log
line has no client-visible effect). -/
def Impl.setError (s : Impl) (e : String) : Impl :=
  { s with last_error := e }

def sendActionNoResponseMsg : String := "Failed to send action (no response)"

def sendActionFailMsg (status : Int) : String :=
  "Send action failed (status " ++ toString status ++ ")"

/-- `Impl::sendAction`: one POST to `/action`; `true` iff the response has
status 200, otherwise `setError` and `false`.  The request outcome is the
explicit `res` argument; exactly one request is issued per call. -/
def Impl.sendAction (s : Impl) (action_json : Json) (res : Option HttpResponse) :
    Bool × Impl :=
  match res with
  | none => (false, s.setError sendActionNoResponseMsg)
  | some r =>
    if r.status ≠ 200 then
      (false, s.setError (sendActionFailMsg r.status))
    else
      (true, s)

def connectNoResponseMsg : String := "Failed to connect to server (no response)"

def healthFailMsg (status : Int) : String :=
  "Health check failed (status " ++ toString status ++ ")"

def healthParseFailMsg (what : String) : String :=
  "Failed to parse health response: " ++ what

/-- Stand-in text for the `what()` of a `json::type_error` raised by
`value()` inside `connect` (its exact wording is library-internal). -/
def typeErrorWhat : String := "type_error"

def serverNotReadyMsg (status : String) : String :=
  "Server not ready (status: " ++ status ++ ")"

/-- `SpireCommClient::connect`: one GET of `/health`; succeeds iff the
response has status 200 and its body parses to a document whose `status`
field reads `"ready"` via `value("status", "")`; every failure path sets
`last_error` and `connected = false`; success sets `connected = true`. -/
def connect (s : Impl) (res : Option HttpResponse) : Bool × Impl :=
  match res with
  | none =>
    (false, { s.setError connectNoResponseMsg with connected := false })
  | some r =>
    if r.status ≠ 200 then
      (false, { s.setError (healthFailMsg r.status) with connected := false })
    else
      match r.body with
      | .malformed w =>
        (false, { s.setError (healthParseFailMsg w) with connected := false })
      | .parsed health =>
        match Json.valueStr health ("status") ("") with
        | none =>
          (false, { s.setError (healthParseFailMsg typeErrorWhat) with connected := false })
        | some st =>
          if st ≠ "ready" then
            (false, { s.setError (serverNotReadyMsg st) with connected := false })
          else
            (true, { s with connected := true })

/-- `SpireCommClient::isConnected`. -/
def isConnected (s : Impl) : Bool := s.connected

/-- `SpireCommClient::getLastError`. -/
def getLastError (s : Impl) : String := s.last_error

def stateNoResponseMsg : String := "Failed to get state (no response)"

def getStateFailMsg (status : Int) : String :=
  "Get state failed (status " ++ toString status ++ ")"

def stateParseFailMsg (what : String) : String :=
  "Failed to parse state JSON: " ++ what

/-- `SpireCommClient::getState`: one GET of `/state`.  No response: error,
empty.  204: empty, nothing touched.  Other non-200: error, empty.  200:
parse the body; on success overwrite the cache wholesale and return the
document; a parse exception sets the error and returns empty (the cache
assignment sits after the parse inside the `try`, so it never runs). -/
def getState (s : Impl) (res : Option HttpResponse) : Option Json × Impl :=
  match res with
  | none => (none, s.setError stateNoResponseMsg)
  | some r =>
    if r.status = 204 then
      (none, s)
    else if r.status ≠ 200 then
      (none, s.setError (getStateFailMsg r.status))
    else
      match r.body with
      | .parsed state => (some state, { s with cached_state := state })
      | .malformed w => (none, s.setError (stateParseFailMsg w))

/-- `SpireCommClient::isInGame`: `false` on an empty cache, otherwise
`value("in_game", false)` with every thrown exception swallowed to
`false`. -/
def isInGame (s : Impl) : Bool :=
  if s.cached_state.empty then false
  else
    match s.cached_state.valueBool ("in_game") false with
    | none => false
    | some b => b

/-- `SpireCommClient::isReadyForCommand`: same shape over
`ready_for_command`. -/
def isReadyForCommand (s : Impl) : Bool :=
  if s.cached_state.empty then false
  else
    match s.cached_state.valueBool ("ready_for_command") false with
    | none => false
    | some b => b

/-- The push loop of `getAvailableCommands`: `get<std::string>` succeeds
exactly on string values; the first non-string throws, the `catch (...)`
swallows it, and the commands accumulated so far are returned. -/
def pushCommands : List Json → List String → List String
  | [], acc => acc
  | .str s :: rest, acc => pushCommands rest (acc ++ [s])
  | _ :: _, acc => acc

/-- `SpireCommClient::getAvailableCommands`: empty on an empty cache;
otherwise, when `contains("available_commands")` holds, iterate that member
pushing `get<std::string>` of each element until one throws. -/
def getAvailableCommands (s : Impl) : List String :=
  if s.cached_state.empty then []
  else
    match s.cached_state with
    | .obj fs =>
      match lookupField fs ("available_commands") with
      | some v => pushCommands v.iterVals []
      | none => []
    | _ => []

/-- The wire form built by `SpireCommClient::endTurn`. -/
def endTurnAction : Json := .obj [("type", .str ("end_turn"))]

/-- `SpireCommClient::endTurn`. -/
def endTurn (s : Impl) (res : Option HttpResponse) : Bool × Impl :=
  s.sendAction endTurnAction res

/-- The wire form built by the untargeted `SpireCommClient::playCard`. -/
def playCardAction (card_index : Int) : Json :=
  .obj [("type", .str ("play_card")), ("card_index", .num card_index)]

/-- The untargeted `SpireCommClient::playCard`. -/
def playCard (s : Impl) (card_index : Int) (res : Option HttpResponse) :
    Bool × Impl :=
  s.sendAction (playCardAction card_index) res

/-- The wire form built by `SpireCommClient::proceed`. -/
def proceedAction : Json := .obj [("type", .str ("proceed"))]

/-- `SpireCommClient::proceed`. -/
def proceed (s : Impl) (res : Option HttpResponse) : Bool × Impl :=
  s.sendAction proceedAction res

/-- One client request together with its transport outcome: a health probe
(`connect`), a state poll (`getState`), or an action dispatch
(`sendAction`). -/
inductive Request where
  | probe : Option HttpResponse → Request
  | poll : Option HttpResponse → Request
  | dispatch : Json → Option HttpResponse → Request

def Request.isProbe : Request → Bool
  | .probe _ => true
  | _ => false

/-- The state transition of a single request. -/
def step (s : Impl) : Request → Impl
  | .probe res => (connect s res).2
  | .poll res => (getState s res).2
  | .dispatch a res => (s.sendAction a res).2

/-- A sequence of requests, executed in order (the client is synchronous
and single-threaded). -/
def run (s : Impl) (reqs : List Request) : Impl := reqs.foldl step s

/-- Modelled from the spec: the Failure Tracker of §4.3 is absent from
`src/` — `client.cpp` keeps no failure counter and the
`max_consecutive_failures` field of the `types.hpp` config is never read.
Its state per the spec: a consecutive-failure counter and the connection
status it may force. -/
structure TrackerState where
  counter : Nat
  status : Types.ConnectionStatus

/-- Modelled from the spec: `recordFailure` increments the counter and,
when it reaches `max_consecutive_failures`, forces status
`DISCONNECTED`. -/
def recordFailure (maxFail : Nat) (t : TrackerState) : TrackerState :=
  if maxFail ≤ t.counter + 1 then
    { counter := t.counter + 1, status := .DISCONNECTED }
  else
    { counter := t.counter + 1, status := t.status }

/-- Modelled from the spec: `recordSuccess` resets the counter to zero and
does not by itself change status. -/
def recordSuccess (t : TrackerState) : TrackerState :=
  { t with counter := 0 }

/-- Modelled from the spec: the tracker observing a sequence of request
outcomes (`true` = success, `false` = failure). -/
def trackerRun (maxFail : Nat) (t : TrackerState) (outcomes : List Bool) :
    TrackerState :=
  outcomes.foldl (fun u ok => if ok then recordSuccess u else recordFailure maxFail u) t

/-- Modelled from the spec: the staleness marker of a state envelope is its
numeric timestamp field (§3, §6, glossary).  Absent from `src/`:
`getState` never reads any marker. -/
def markerOf (j : Json) : Option Json :=
  match j with
  | .obj fs => lookupField fs ("timestamp")
  | _ => none

/-- Modelled from the spec: the timeout condition of `waitForReady` is
reported with its own message, distinct from the transport-failure
messages (§4.4, §7). -/
def timeoutMsg : String := "Timeout waiting for ready state"

/-- Modelled from the spec: `waitForReady(timeout)` — declared nowhere in
`src/` and called only by `examples/example_ai.cpp` — polls `getState()`
in a loop with a fixed short backoff until a poll yields a non-empty state
while connected, or the timeout elapses (§4.4).  Each list entry is the
transport outcome of one poll inside the timeout window; the exhausted
list is the elapsed timeout, reported with `timeoutMsg` and without any
further failure recording. -/
def waitForReady : Impl → List (Option HttpResponse) → Bool × Impl
  | s, [] => (false, s.setError timeoutMsg)
  | s, res :: rest =>
    match getState s res with
    | (some _, s2) => if s2.connected then (true, s2) else waitForReady s2 rest
    | (none, s2) => waitForReady s2 rest

/-- The longest all-string prefix of a list of JSON values: what the push
loop of `getAvailableCommands` accumulates before the first throw. -/
def wellTypedStrings : List Json → List String
  | [] => []
  | .str s :: rest => s :: wellTypedStrings rest
  | _ :: _ => []

/-- Probe used to separate two concrete documents: the integer value of
field `a`. -/
def fieldAInt (j : Json) : Int :=
  match j with
  | .obj fs =>
    match lookupField fs ("a") with
    | some (.num n) => n
    | _ => 0
  | _ => 0

/-! ### Concrete fixtures -/

/-- A client that has successfully connected and has no cache yet. -/
def connReady : Impl :=
  { config := ClientConfig.default, cached_state := .null,
    connected := true, last_error := "" }

/-- A 200 action acknowledgement. -/
def okResp : HttpResponse := { status := 200, body := .parsed .null }

/-- A 204 no-content state response. -/
def noContentResp : HttpResponse := { status := 204, body := .parsed .null }

/-- A cached state document carrying staleness marker 5 and payload a=1. -/
def oldStateDoc : Json := .obj [("timestamp", .num 5), ("a", .num 1)]

/-- A state document with the same staleness marker 5 but payload a=2. -/
def newStateDoc : Json := .obj [("timestamp", .num 5), ("a", .num 2)]

/-- A connected client whose cache holds `oldStateDoc`. -/
def cachedClient : Impl :=
  { config := ClientConfig.default, cached_state := oldStateDoc,
    connected := true, last_error := "" }

/-- A 200 state response whose parsed body carries the marker already
cached by `cachedClient`. -/
def sameMarkerResp : HttpResponse := { status := 200, body := .parsed newStateDoc }

/-- A cache whose `available_commands` holds a non-string after a
string — a malformed field in the sense of the spec. -/
def mixedCmdsDoc : Json :=
  .obj [("available_commands", .arr [.str ("play"), .num 5, .str ("end")])]

/-- A connected client caching `mixedCmdsDoc`. -/
def mixedCmdsClient : Impl :=
  { config := ClientConfig.default, cached_state := mixedCmdsDoc,
    connected := true, last_error := "" }

/-! ### Helper lemmas -/

theorem append_ne_empty_left (a b : String) (h : a ≠ "") : a ++ b ≠ "" := by
  intro hab
  apply h
  have hd : a.data ++ b.data = ([] : List Char) := by
    have hc := congrArg String.data hab
    simpa [String.data_append] using hc
  have ha : a.data = ([] : List Char) := (List.append_eq_nil.mp hd).1
  cases a
  simp_all

theorem healthFailMsg_ne_empty (st : Int) : healthFailMsg st ≠ "" := by
  unfold healthFailMsg
  rw [String.append_assoc]
  exact append_ne_empty_left _ _ (by decide)

theorem getStateFailMsg_ne_empty (st : Int) : getStateFailMsg st ≠ "" := by
  unfold getStateFailMsg
  rw [String.append_assoc]
  exact append_ne_empty_left _ _ (by decide)

theorem stateParseFailMsg_ne_empty (w : String) : stateParseFailMsg w ≠ "" := by
  unfold stateParseFailMsg
  exact append_ne_empty_left _ _ (by decide)

theorem healthParseFailMsg_ne_empty (w : String) : healthParseFailMsg w ≠ "" := by
  unfold healthParseFailMsg
  exact append_ne_empty_left _ _ (by decide)

theorem serverNotReadyMsg_ne_empty (st : String) : serverNotReadyMsg st ≠ "" := by
  unfold serverNotReadyMsg
  rw [String.append_assoc]
  exact append_ne_empty_left _ _ (by decide)

/-! ### C3: the connect contract -/

/-- C3: `connect()` returns true iff the health request yields HTTP 200 and
the parsed body reports `status = "ready"`; on any transport failure,
non-200 status, parse failure, or non-ready indicator it sets a non-empty
`LastError`, returns false, and `connected` becomes false; on success
`connected` becomes true. -/
theorem connect_contract (s : Impl) (res : Option HttpResponse) :
    ((connect s res).1 = true ↔
      ∃ r h, res = some r ∧ r.status = 200 ∧ r.body = .parsed h ∧
        Json.valueStr h ("status") ("") = some ("ready"))
    ∧ (connect s res).2.connected = (connect s res).1
    ∧ ((connect s res).1 = false →
        ∃ m, m ≠ "" ∧ (connect s res).2 = { s.setError m with connected := false })
    ∧ ((connect s res).1 = true → (connect s res).2 = { s with connected := true }) := by
  rcases res with _ | r
  · refine ⟨by simp [connect], by simp [connect], ?_, by simp [connect]⟩
    intro _
    exact ⟨connectNoResponseMsg, by decide, by simp [connect]⟩
  · by_cases hs : r.status = 200
    · rcases hb : r.body with w | health
      · refine ⟨by simp [connect, hs, hb], by simp [connect, hs, hb], ?_, ?_⟩
        · intro _
          exact ⟨healthParseFailMsg w, healthParseFailMsg_ne_empty w,
            by simp [connect, hs, hb]⟩
        · simp [connect, hs, hb]
      · rcases hv : Json.valueStr health ("status") ("") with _ | st
        · refine ⟨by simp [connect, hs, hb, hv], by simp [connect, hs, hb, hv], ?_, ?_⟩
          · intro _
            exact ⟨healthParseFailMsg typeErrorWhat,
              healthParseFailMsg_ne_empty typeErrorWhat,
              by simp [connect, hs, hb, hv]⟩
          · simp [connect, hs, hb, hv]
        · by_cases hready : st = "ready"
          · subst hready
            refine ⟨?_, by simp [connect, hs, hb, hv], by simp [connect, hs, hb, hv], ?_⟩
            · constructor
              · intro _
                exact ⟨r, health, rfl, hs, hb, hv⟩
              · intro _
                simp [connect, hs, hb, hv]
            · intro _
              simp [connect, hs, hb, hv]
          · refine ⟨?_, by simp [connect, hs, hb, hv, hready],
              ?_, by simp [connect, hs, hb, hv, hready]⟩
            · constructor
              · intro hfalse
                have hF : False := by
                  simp [connect, hs, hb, hv, hready] at hfalse
                exact hF.elim
              · rintro ⟨r2, h2, hr2, -, hb2, hv2⟩
                cases hr2
                rw [hb] at hb2
                cases hb2
                rw [hv] at hv2
                cases hv2
                exact absurd rfl hready
            · intro _
              exact ⟨serverNotReadyMsg st, serverNotReadyMsg_ne_empty st,
                by simp [connect, hs, hb, hv, hready]⟩
    · refine ⟨?_, by simp [connect, hs], ?_, by simp [connect, hs]⟩
      · constructor
        · intro hfalse
          have hF : False := by
            simp [connect, hs] at hfalse
          exact hF.elim
        · rintro ⟨r2, h2, hr2, hst2, -, -⟩
          cases hr2
          exact absurd hst2 hs
      · intro _
        exact ⟨healthFailMsg r.status, healthFailMsg_ne_empty r.status,
          by simp [connect, hs]⟩

/-- C3 witness at a concrete successful health response. -/
theorem connect_contract_witness :
    ((connect (Impl.init ClientConfig.default)
        (some { status := 200, body := .parsed (.obj [("status", .str ("ready"))]) })).1 = true ↔
      ∃ r h, (some { status := 200, body := .parsed (.obj [("status", .str ("ready"))]) } :
          Option HttpResponse) = some r ∧ r.status = 200 ∧ r.body = .parsed h ∧
        Json.valueStr h ("status") ("") = some ("ready"))
    ∧ (connect (Impl.init ClientConfig.default)
        (some { status := 200, body := .parsed (.obj [("status", .str ("ready"))]) })).2.connected
      = (connect (Impl.init ClientConfig.default)
        (some { status := 200, body := .parsed (.obj [("status", .str ("ready"))]) })).1 := by
  have h := connect_contract (Impl.init ClientConfig.default)
    (some { status := 200, body := .parsed (.obj [("status", .str ("ready"))]) })
  exact ⟨h.1, h.2.1⟩

theorem sendActionFailMsg_ne_empty (st : Int) : sendActionFailMsg st ≠ "" := by
  unfold sendActionFailMsg
  rw [String.append_assoc]
  exact append_ne_empty_left _ _ (by decide)

theorem connect_connected_eq (s : Impl) (res : Option HttpResponse) :
    (connect s res).2.connected = (connect s res).1 := by
  rcases res with _ | r
  · rfl
  · by_cases hs : r.status = 200
    · rcases hb : r.body with w | health
      · simp [connect, hs, hb]
      · rcases hv : Json.valueStr health ("status") ("") with _ | st
        · simp [connect, hs, hb, hv]
        · by_cases hr : st = "ready" <;> simp [connect, hs, hb, hv, hr]
    · simp [connect, hs]

theorem getState_connected_eq (s : Impl) (res : Option HttpResponse) :
    (getState s res).2.connected = s.connected := by
  rcases res with _ | r
  · rfl
  · by_cases h204 : r.status = 204
    · simp [getState, h204]
    · by_cases h200 : r.status = 200
      · rcases hb : r.body with w | st <;>
          simp [getState, h204, h200, hb, Impl.setError]
      · simp [getState, h204, h200, Impl.setError]

theorem sendAction_connected_eq (s : Impl) (a : Json) (res : Option HttpResponse) :
    (s.sendAction a res).2.connected = s.connected := by
  rcases res with _ | r
  · rfl
  · by_cases hs : r.status = 200 <;> simp [Impl.sendAction, hs, Impl.setError]

theorem step_connected_of_not_probe (s : Impl) (q : Request)
    (h : q.isProbe = false) : (step s q).connected = s.connected := by
  cases q with
  | probe res => simp [Request.isProbe] at h
  | poll res => exact getState_connected_eq s res
  | dispatch a res => exact sendAction_connected_eq s a res

theorem run_connected_of_no_probe (reqs : List Request) (s : Impl)
    (h : ∀ q ∈ reqs, q.isProbe = false) :
    (run s reqs).connected = s.connected := by
  induction reqs generalizing s with
  | nil => rfl
  | cons q rest ih =>
    have h1 : run s (q :: rest) = run (step s q) rest := rfl
    rw [h1, ih (step s q) (fun x hx => h x (List.mem_cons_of_mem q hx))]
    exact step_connected_of_not_probe s q (h q (List.mem_cons_self q rest))

theorem pushCommands_eq (xs : List Json) (acc : List String) :
    pushCommands xs acc = acc ++ wellTypedStrings xs := by
  induction xs generalizing acc with
  | nil => simp [pushCommands, wellTypedStrings]
  | cons x rest ih =>
    cases x <;> simp [pushCommands, wellTypedStrings, ih]

theorem lookupField_ne_nil {fs : List (String × Json)} {key : String}
    {v : Json} (h : lookupField fs key = some v) : fs.isEmpty = false := by
  cases fs with
  | nil => simp [lookupField] at h
  | cons p rest => rfl

/-! ### C4: a 204 state response changes nothing -/

/-- C4: when the state request returns HTTP 204, `getState()` returns
empty and leaves the whole client state — cache, connected flag,
`last_error` — exactly as it was: the 204 is not recorded as a failure. -/
theorem getState_204_frame (s : Impl) (r : HttpResponse)
    (h : r.status = 204) : getState s (some r) = (none, s) := by
  simp [getState, h]

/-- C4 witness at a concrete 204 response. -/
theorem getState_204_frame_witness :
    getState connReady (some noContentResp) = (none, connReady) :=
  getState_204_frame connReady noContentResp rfl

/-! ### C9: empty results never clobber the cache -/

/-- C9: every `getState()` call that returns empty — no response, a status
other than 200/204, a 204, or a 200 body that fails to parse — leaves the
cached state exactly as it was; the cache update is atomic with a
successful parse. -/
theorem getState_empty_preserves_cache (s : Impl) (res : Option HttpResponse)
    (h : (getState s res).1 = none) :
    (getState s res).2.cached_state = s.cached_state := by
  rcases res with _ | r
  · rfl
  · by_cases h204 : r.status = 204
    · simp [getState, h204]
    · by_cases h200 : r.status = 200
      · rcases hb : r.body with w | st
        · simp [getState, h204, h200, hb, Impl.setError]
        · exfalso
          simp [getState, h204, h200, hb] at h
      · simp [getState, h204, h200, Impl.setError]

/-- C9 witness: a failed-parse 200 response against a populated cache. -/
theorem getState_empty_preserves_cache_witness :
    (getState cachedClient (some { status := 200, body := .malformed ("bad") })).2.cached_state
      = cachedClient.cached_state :=
  getState_empty_preserves_cache cachedClient
    (some { status := 200, body := .malformed ("bad") }) rfl

/-! ### C6: getState failure handling -/

/-- C6: every `getState()` call whose request has no response, yields a
status other than 200 or 204, or yields a 200 body that fails to parse,
records a non-empty `last_error` through `setError` and returns empty. -/
theorem getState_failure_routes (s : Impl) (res : Option HttpResponse)
    (h : res = none ∨ ∃ r, res = some r ∧
      ((r.status ≠ 200 ∧ r.status ≠ 204) ∨
        ∃ w, r.status = 200 ∧ r.body = .malformed w)) :
    (getState s res).1 = none
    ∧ ∃ m, m ≠ "" ∧ (getState s res).2 = s.setError m := by
  rcases h with h | ⟨r, hres, hcase⟩
  · subst h
    exact ⟨rfl, stateNoResponseMsg, by decide, rfl⟩
  · subst hres
    rcases hcase with ⟨h200, h204⟩ | ⟨w, h200, hb⟩
    · refine ⟨?_, getStateFailMsg r.status,
        getStateFailMsg_ne_empty r.status, ?_⟩ <;>
        simp [getState, h200, h204]
    · refine ⟨?_, stateParseFailMsg w, stateParseFailMsg_ne_empty w, ?_⟩ <;>
        simp [getState, h200, hb]

/-- C6 witness at a concrete transport failure. -/
theorem getState_failure_routes_witness :
    (getState connReady none).1 = none
    ∧ ∃ m, m ≠ "" ∧ (getState connReady none).2 = connReady.setError m :=
  getState_failure_routes connReady none (Or.inl rfl)

/-! ### C10: only connect writes the connected flag -/

/-- C10: the connected flag reported by `isConnected()` is written only by
`connect()`: `getState()` and every action dispatch leave it unchanged,
and after a successful `connect()` it stays true across arbitrarily many
subsequent failed or successful polls and dispatches until `connect()` is
called again. -/
theorem connected_written_only_by_connect (s : Impl) (res : Option HttpResponse)
    (a : Json) (reqs : List Request) (h : ∀ q ∈ reqs, q.isProbe = false) :
    (getState s res).2.connected = s.connected
    ∧ (s.sendAction a res).2.connected = s.connected
    ∧ isConnected (run s reqs) = isConnected s
    ∧ ((connect s res).1 = true → isConnected (run (connect s res).2 reqs) = true) := by
  refine ⟨getState_connected_eq s res, sendAction_connected_eq s a res,
    run_connected_of_no_probe reqs s h, ?_⟩
  intro hc
  have h2 := run_connected_of_no_probe reqs ((connect s res).2) h
  rw [isConnected, h2, connect_connected_eq, hc]

/-- C10 witness: a successful connect followed by a failed poll and a
failed dispatch leaves the client connected. -/
theorem connected_written_only_by_connect_witness :
    isConnected (run (Impl.init ClientConfig.default)
      [Request.poll none, Request.dispatch endTurnAction none])
      = isConnected (Impl.init ClientConfig.default)
    ∧ ((connect (Impl.init ClientConfig.default)
        (some { status := 200, body := .parsed (.obj [("status", .str ("ready"))]) })).1 = true →
      isConnected (run (connect (Impl.init ClientConfig.default)
        (some { status := 200, body := .parsed (.obj [("status", .str ("ready"))]) })).2
        [Request.poll none, Request.dispatch endTurnAction none]) = true) := by
  have h := connected_written_only_by_connect (Impl.init ClientConfig.default)
    (some { status := 200, body := .parsed (.obj [("status", .str ("ready"))]) })
    endTurnAction [Request.poll none, Request.dispatch endTurnAction none]
    (by
      intro q hq
      rcases List.mem_cons.mp hq with rfl | hq2
      · rfl
      · rcases List.mem_cons.mp hq2 with rfl | hq3
        · rfl
        · cases hq3)
  exact ⟨h.2.2.1, h.2.2.2⟩

/-! ### C1: no staleness-marker deduplication exists -/

/-- C1 counterexample: a 200 response whose parsed body carries the very
marker already cached is still reparsed and overwrites the cache with the
new document — `getState` neither compares markers nor returns the cached
document. -/
theorem getState_marker_dedup_counterexample :
    markerOf newStateDoc = markerOf oldStateDoc
    ∧ newStateDoc ≠ oldStateDoc
    ∧ (getState cachedClient (some sameMarkerResp)).1 = some newStateDoc
    ∧ (getState cachedClient (some sameMarkerResp)).2.cached_state = newStateDoc := by
  refine ⟨rfl, ?_, rfl, rfl⟩
  intro h
  exact absurd (congrArg fieldAInt h) (by decide)

/-- C1 amended: `getState` replaces the cache wholesale with the freshly
parsed document on every 200 response whose body parses, regardless of any
staleness marker; polls with value-identical bodies keep the cached value
equal only because the identical document is re-parsed and re-written. -/
theorem getState_always_replaces_cache (s : Impl) (r : HttpResponse)
    (st : Json) (h200 : r.status = 200) (hb : r.body = .parsed st) :
    getState s (some r) = (some st, { s with cached_state := st }) := by
  simp [getState, h200, hb]

/-- C1 amended witness at the same-marker response of the
counterexample. -/
theorem getState_always_replaces_cache_witness :
    getState cachedClient (some sameMarkerResp)
      = (some newStateDoc, { cachedClient with cached_state := newStateDoc }) :=
  getState_always_replaces_cache cachedClient sameMarkerResp newStateDoc rfl rfl

/-! ### C2: no failure threshold exists -/

/-- C2 counterexample: ten consecutive failed polls — `N` being
`max_consecutive_failures = 10` of the `types.hpp` default config — leave
the client connected; the spec's Failure Tracker would have forced
`DISCONNECTED` at that point. -/
theorem failure_threshold_counterexample :
    Types.ClientConfig.default.max_consecutive_failures = 10
    ∧ (run connReady (List.replicate 10 (Request.poll none))).connected = true
    ∧ (trackerRun 10 { counter := 0, status := .CONNECTED }
        (List.replicate 10 false)).status = Types.ConnectionStatus.DISCONNECTED := by
  refine ⟨rfl, ?_, by decide⟩
  have hmem : ∀ q ∈ List.replicate 10 (Request.poll none), q.isProbe = false := by
    intro q hq
    rw [List.eq_of_mem_replicate hq]
    rfl
  rw [run_connected_of_no_probe _ _ hmem]
  rfl

/-- C2 amended: the code keeps no failure counter and never reads
`max_consecutive_failures`; no number of consecutive failed polls or
dispatches (each of which only rewrites `last_error`) ever changes the
connected flag, while a single failed health probe sets it false by
itself. -/
theorem no_failure_threshold_transition (s : Impl) (n m : Nat) (a : Json) :
    (run s (List.replicate n (Request.poll none))).connected = s.connected
    ∧ (run s (List.replicate m (Request.dispatch a none))).connected = s.connected
    ∧ (connect s none).2.connected = false := by
  refine ⟨?_, ?_, rfl⟩
  · have hmem : ∀ q ∈ List.replicate n (Request.poll none), q.isProbe = false := by
      intro q hq
      rw [List.eq_of_mem_replicate hq]
      rfl
    rw [run_connected_of_no_probe _ _ hmem]
  · have hmem : ∀ q ∈ List.replicate m (Request.dispatch a none), q.isProbe = false := by
      intro q hq
      rw [List.eq_of_mem_replicate hq]
      rfl
    rw [run_connected_of_no_probe _ _ hmem]

/-! ### C5: the dispatch contract, without any tracker -/

/-- C5 counterexample: ten consecutive failed `endTurn` dispatches leave
the client connected — dispatch failures are not routed through any
Failure Tracker, which per its contract would have forced `DISCONNECTED`
at the tenth consecutive failure. -/
theorem sendAction_tracker_counterexample :
    (run connReady (List.replicate 10 (Request.dispatch endTurnAction none))).connected
      = true
    ∧ (trackerRun Types.ClientConfig.default.max_consecutive_failures
        { counter := 0, status := .CONNECTED }
        (List.replicate 10 false)).status = Types.ConnectionStatus.DISCONNECTED := by
  refine ⟨?_, by decide⟩
  have hmem : ∀ q ∈ List.replicate 10 (Request.dispatch endTurnAction none),
      q.isProbe = false := by
    intro q hq
    rw [List.eq_of_mem_replicate hq]
    rfl
  rw [run_connected_of_no_probe _ _ hmem]
  rfl

/-- C5 amended: every dispatch returns true iff the POST receives HTTP
200; a no-response or non-200 outcome returns false and overwrites
`last_error` with a non-empty message, touching nothing else; success
changes no client state at all (there is no failure counter to reset);
exactly one POST is issued per call (no retry), and the typed wrappers are
`sendAction` on their wire forms. -/
theorem sendAction_contract (s : Impl) (a : Json) (i : Int)
    (res : Option HttpResponse) :
    ((s.sendAction a res).1 = true ↔ ∃ r, res = some r ∧ r.status = 200)
    ∧ ((s.sendAction a res).1 = true → (s.sendAction a res).2 = s)
    ∧ ((s.sendAction a res).1 = false →
        ∃ m, m ≠ "" ∧ (s.sendAction a res).2 = s.setError m)
    ∧ (s.sendAction a res).2.connected = s.connected
    ∧ (s.sendAction a res).2.cached_state = s.cached_state
    ∧ endTurn s res = s.sendAction endTurnAction res
    ∧ playCard s i res = s.sendAction (playCardAction i) res
    ∧ proceed s res = s.sendAction proceedAction res := by
  rcases res with _ | r
  · refine ⟨?_, ?_, fun _ => ⟨sendActionNoResponseMsg, by decide, rfl⟩,
      rfl, rfl, rfl, rfl, rfl⟩
    · simp [Impl.sendAction]
    · intro htrue
      have hF : False := by simp [Impl.sendAction] at htrue
      exact hF.elim
  · by_cases hs : r.status = 200
    · refine ⟨?_, by simp [Impl.sendAction, hs], ?_,
        by simp [Impl.sendAction, hs], by simp [Impl.sendAction, hs],
        rfl, rfl, rfl⟩
      · constructor
        · intro _
          exact ⟨r, rfl, hs⟩
        · intro _
          simp [Impl.sendAction, hs]
      · intro hfalse
        have hF : False := by simp [Impl.sendAction, hs] at hfalse
        exact hF.elim
    · refine ⟨?_, ?_,
        fun _ => ⟨sendActionFailMsg r.status,
          sendActionFailMsg_ne_empty r.status, by simp [Impl.sendAction, hs]⟩,
        by simp [Impl.sendAction, hs, Impl.setError],
        by simp [Impl.sendAction, hs, Impl.setError], rfl, rfl, rfl⟩
      · constructor
        · intro htrue
          have hF : False := by simp [Impl.sendAction, hs] at htrue
          exact hF.elim
        · rintro ⟨r2, hr2, hst⟩
          cases hr2
          exact absurd hst hs
      · intro htrue
        have hF : False := by simp [Impl.sendAction, hs] at htrue
        exact hF.elim

/-- C5 amended witness: a 200 acknowledgement of `endTurn` succeeds and
changes nothing. -/
theorem sendAction_contract_witness :
    (connReady.sendAction endTurnAction (some okResp)).1 = true
    ∧ (connReady.sendAction endTurnAction (some okResp)).2 = connReady :=
  have h := sendAction_contract connReady endTurnAction 0 (some okResp)
  ⟨h.1.mpr ⟨okResp, rfl, rfl⟩, h.2.1 (h.1.mpr ⟨okResp, rfl, rfl⟩)⟩

/-! ### C7: convenience accessors -/

/-- C7 counterexample: on an `available_commands` field that is malformed
(a non-string element after a string one) `getAvailableCommands` returns
the partial prefix `["play"]` — neither the claimed not-available default
`[]` nor the full typed field value. -/
theorem accessors_malformed_counterexample :
    mixedCmdsClient.cached_state.containsKey ("available_commands") = true
    ∧ getAvailableCommands mixedCmdsClient = [("play" : String)]
    ∧ getAvailableCommands mixedCmdsClient ≠ [] := by
  exact ⟨rfl, rfl, by decide⟩

theorem isInGame_obj_eq (s : Impl) (fs : List (String × Json))
    (hcs : s.cached_state = .obj fs) (hne : fs.isEmpty = false) :
    isInGame s = (match lookupField fs ("in_game") with
      | some (.bool b) => b
      | some _ => false
      | none => false) := by
  unfold isInGame
  rw [hcs]
  show (if (fs.isEmpty : Bool) then false else _) = _
  rw [hne]
  rcases hl : lookupField fs ("in_game") with _ | v
  · simp [Json.valueBool, hl]
  · rcases v <;> simp [Json.valueBool, hl]

theorem isReadyForCommand_obj_eq (s : Impl) (fs : List (String × Json))
    (hcs : s.cached_state = .obj fs) (hne : fs.isEmpty = false) :
    isReadyForCommand s = (match lookupField fs ("ready_for_command") with
      | some (.bool b) => b
      | some _ => false
      | none => false) := by
  unfold isReadyForCommand
  rw [hcs]
  show (if (fs.isEmpty : Bool) then false else _) = _
  rw [hne]
  rcases hl : lookupField fs ("ready_for_command") with _ | v
  · simp [Json.valueBool, hl]
  · rcases v <;> simp [Json.valueBool, hl]

theorem isInGame_true_inv (s : Impl) (h : isInGame s = true) :
    ∃ fs, s.cached_state = .obj fs
      ∧ lookupField fs ("in_game") = some (.bool true) := by
  rcases hcs : s.cached_state with _ | b | nn | t | xs | fs
  · unfold isInGame at h
    rw [hcs] at h
    simp [Json.empty] at h
  · unfold isInGame at h
    rw [hcs] at h
    simp [Json.empty, Json.valueBool] at h
  · unfold isInGame at h
    rw [hcs] at h
    simp [Json.empty, Json.valueBool] at h
  · unfold isInGame at h
    rw [hcs] at h
    simp [Json.empty, Json.valueBool] at h
  · unfold isInGame at h
    rw [hcs] at h
    simp [Json.empty, Json.valueBool] at h
  · by_cases hne : fs.isEmpty = true
    · exfalso
      unfold isInGame at h
      rw [hcs] at h
      simp [Json.empty, hne] at h
    · have hne2 : fs.isEmpty = false := by simpa using hne
      rw [isInGame_obj_eq s fs hcs hne2] at h
      refine ⟨fs, rfl, ?_⟩
      rcases hl : lookupField fs ("in_game") with _ | v
      · rw [hl] at h
        cases h
      · rcases v with _ | b | nn | t | xs2 | fs2 <;> rw [hl] at h
        · cases h
        · cases b
          · cases h
          · rfl
        · cases h
        · cases h
        · cases h
        · cases h

theorem isReadyForCommand_true_inv (s : Impl) (h : isReadyForCommand s = true) :
    ∃ fs, s.cached_state = .obj fs
      ∧ lookupField fs ("ready_for_command") = some (.bool true) := by
  rcases hcs : s.cached_state with _ | b | nn | t | xs | fs
  · unfold isReadyForCommand at h
    rw [hcs] at h
    simp [Json.empty] at h
  · unfold isReadyForCommand at h
    rw [hcs] at h
    simp [Json.empty, Json.valueBool] at h
  · unfold isReadyForCommand at h
    rw [hcs] at h
    simp [Json.empty, Json.valueBool] at h
  · unfold isReadyForCommand at h
    rw [hcs] at h
    simp [Json.empty, Json.valueBool] at h
  · unfold isReadyForCommand at h
    rw [hcs] at h
    simp [Json.empty, Json.valueBool] at h
  · by_cases hne : fs.isEmpty = true
    · exfalso
      unfold isReadyForCommand at h
      rw [hcs] at h
      simp [Json.empty, hne] at h
    · have hne2 : fs.isEmpty = false := by simpa using hne
      rw [isReadyForCommand_obj_eq s fs hcs hne2] at h
      refine ⟨fs, rfl, ?_⟩
      rcases hl : lookupField fs ("ready_for_command") with _ | v
      · rw [hl] at h
        cases h
      · rcases v with _ | b | nn | t | xs2 | fs2 <;> rw [hl] at h
        · cases h
        · cases b
          · cases h
          · rfl
        · cases h
        · cases h
        · cases h
        · cases h

theorem accessors_empty_defaults (s : Impl) (h : s.cached_state.empty = true) :
    isInGame s = false ∧ isReadyForCommand s = false
    ∧ getAvailableCommands s = [] := by
  unfold isInGame isReadyForCommand getAvailableCommands
  rw [h]
  simp

theorem getAvailableCommands_obj (s : Impl) (fs : List (String × Json))
    (v : Json) (hcs : s.cached_state = .obj fs)
    (hl : lookupField fs ("available_commands") = some v) :
    getAvailableCommands s = wellTypedStrings v.iterVals := by
  have hne : fs.isEmpty = false := lookupField_ne_nil hl
  unfold getAvailableCommands
  rw [hcs]
  show (if (fs.isEmpty : Bool) then ([] : List String) else _) = _
  rw [hne]
  simp [hl, pushCommands_eq]

theorem getAvailableCommands_no_field (s : Impl)
    (h : s.cached_state.containsKey ("available_commands") = false) :
    getAvailableCommands s = [] := by
  unfold getAvailableCommands
  rcases hcs : s.cached_state with _ | b | nn | t | xs | fs <;> rw [hcs] at h <;>
    try simp
  · rcases hl : lookupField fs ("available_commands") with _ | v
    · simp [hl]
    · exfalso
      rw [Json.containsKey, hl] at h
      cases h

/-- C7 amended: the accessors are total reads over the cache: on an empty
cache, a missing field, a malformed boolean field or a non-object cache
they report the not-available default, a present well-typed boolean is
returned as is, and `getAvailableCommands` on a present field returns the
longest prefix of well-typed string elements before the first malformed
one (so a malformed element yields a partial list, not `[]`). -/
theorem accessors_contract (s : Impl) :
    (s.cached_state.empty = true →
      isInGame s = false ∧ isReadyForCommand s = false
      ∧ getAvailableCommands s = [])
    ∧ (∀ fs b, s.cached_state = .obj fs → fs.isEmpty = false →
        lookupField fs ("in_game") = some (.bool b) → isInGame s = b)
    ∧ (isInGame s = true → ∃ fs, s.cached_state = .obj fs
        ∧ lookupField fs ("in_game") = some (.bool true))
    ∧ (∀ fs b, s.cached_state = .obj fs → fs.isEmpty = false →
        lookupField fs ("ready_for_command") = some (.bool b) →
        isReadyForCommand s = b)
    ∧ (isReadyForCommand s = true → ∃ fs, s.cached_state = .obj fs
        ∧ lookupField fs ("ready_for_command") = some (.bool true))
    ∧ (∀ fs v, s.cached_state = .obj fs →
        lookupField fs ("available_commands") = some v →
        getAvailableCommands s = wellTypedStrings v.iterVals)
    ∧ (s.cached_state.containsKey ("available_commands") = false →
        getAvailableCommands s = []) := by
  refine ⟨accessors_empty_defaults s, ?_, isInGame_true_inv s, ?_,
    isReadyForCommand_true_inv s, ?_, getAvailableCommands_no_field s⟩
  · intro fs b hcs hne hl
    rw [isInGame_obj_eq s fs hcs hne, hl]
  · intro fs b hcs hne hl
    rw [isReadyForCommand_obj_eq s fs hcs hne, hl]
  · intro fs v hcs hl
    exact getAvailableCommands_obj s fs v hcs hl

/-- C7 amended witness: a cache with a well-typed `in_game` and a
partially malformed `available_commands`. -/
theorem accessors_contract_witness :
    isInGame ⟨ClientConfig.default, .obj [("in_game", .bool true)], true, ""⟩ = true
    ∧ getAvailableCommands mixedCmdsClient
        = wellTypedStrings (Json.arr [.str ("play"), .num 5, .str ("end")]).iterVals := by
  constructor
  · exact (accessors_contract _).2.1 [("in_game", .bool true)] true rfl rfl rfl
  · exact (accessors_contract mixedCmdsClient).2.2.2.2.2.1 _ _ rfl rfl

/-! ### C8: waitForReady (spec-modelled) -/

theorem waitForReady_allNoContent (n : Nat) (s : Impl) :
    waitForReady s (List.replicate n (some noContentResp))
      = (false, s.setError timeoutMsg) := by
  induction n generalizing s with
  | zero => rfl
  | succ k ih =>
    rw [List.replicate_succ]
    exact ih s

/-- C8 (spec-modelled): `waitForReady` polls `getState()` repeatedly and
returns true as soon as a poll yields a non-empty state while connected;
when every poll inside the window yields no state it returns false — not
an exception — with the timeout reported through its own message, distinct
from the transport-failure message, leaving the connected flag alone and
recording no poll failure. -/
theorem waitForReady_contract (s : Impl) (r : HttpResponse) (st : Json)
    (rest : List (Option HttpResponse)) (n : Nat)
    (hc : s.connected = true) (h200 : r.status = 200)
    (hb : r.body = .parsed st) :
    (waitForReady s (some r :: rest)).1 = true
    ∧ waitForReady s (List.replicate n (some noContentResp))
        = (false, s.setError timeoutMsg)
    ∧ timeoutMsg ≠ stateNoResponseMsg
    ∧ (s.setError timeoutMsg).connected = s.connected := by
  refine ⟨?_, waitForReady_allNoContent n s, by decide, rfl⟩
  have hg : getState s (some r) = (some st, { s with cached_state := st }) := by
    simp [getState, h200, hb]
  simp only [waitForReady]
  rw [hg]
  simp [hc]

/-- C8 witness: a connected client sees a state on the first poll; three
vacuous polls time out. -/
theorem waitForReady_contract_witness :
    (waitForReady connReady [some sameMarkerResp]).1 = true
    ∧ waitForReady connReady (List.replicate 3 (some noContentResp))
        = (false, connReady.setError timeoutMsg) :=
  have h := waitForReady_contract connReady sameMarkerResp newStateDoc [] 3 rfl rfl rfl
  ⟨h.1, h.2.1⟩

end Spirecomm
